import Mathlib

/-!
Verification of the crho front end (src/scanner.cpp): a shallow embedding of
the lexer (`gettok`), the precedence-climbing parser, and the top-level
driver loop, with theorems settling the specification claims.

Conventions of the embedding:
* `getchar()` on a character stream is modelled by a `List Char`; the value
  `EOF` is modelled by `Option.none` (`some c` is an ordinary character).
* The `<cctype>` classifiers are modelled for the C locale.
* The global `LastChar` is threaded explicitly through the lexer; the
  global `CurrToken` becomes the `cur` field of an explicit parser state,
  and the rest of the token stream is a `List Tok` (`GetNextToken` pops it;
  once it is empty every further `gettok` yields `tok_eof`, so popping the
  empty list yields `tok_eof`).
* Tokens keep their payload (`IdentifierStr`, the matched number string)
  instead of using globals.
* `RaiseError` prints and returns `nullptr`; a null AST result is modelled
  by `Option.none`.
* The mutually recursive parse functions receive a fuel argument so that
  every definition is a computable total function; fuel exhaustion is the
  outer `none` of the result type `Option (Option Ast × PState)`, a parse
  error (null result) is the inner `none`. A result `some r` for every
  fuel-independent question is established at concrete fuel values large
  enough for the input at hand.
* `ORDER_OF_OPS` is a `std::map<char, int>`, modelled as an association
  list from the key integer to the precedence. The subscript
  `ORDER_OF_OPS[CurrToken]` converts the `int` token to the signed `char`
  key and value-initializes absent entries, so the lookup of an absent key
  yields 0 (the comment in the source claims -1; several claims hinge on
  this difference).
-/

set_option maxRecDepth 1024

/-- C locale `isspace`. -/
def isSpaceC (c : Char) : Bool :=
  c == ' ' || c == '\t' || c == '\n' || c == '\x0b' || c == '\x0c' || c == '\r'

/-- C locale `isalpha`. -/
def isAlphaC (c : Char) : Bool :=
  ('A' ≤ c && c ≤ 'Z') || ('a' ≤ c && c ≤ 'z')

/-- C locale `isdigit`. -/
def isDigitC (c : Char) : Bool :=
  '0' ≤ c && c ≤ '9'

/-- C locale `isalnum`. -/
def isAlnumC (c : Char) : Bool :=
  isAlphaC c || isDigitC c

/-- `isspace` applied to the `int` holding either a character or `EOF`
(`isspace(EOF)` is false). -/
def isSpaceOpt : Option Char → Bool
  | none => false
  | some c => isSpaceC c

/-- The tokens of scanner.cpp: `tok_eof`, `tok_func`, `tok_import`
(constructor `imp`), `tok_identifier` (with `IdentifierStr`), `tok_number`
(with the matched number string that is fed to `strtod`), and any other
single character returned verbatim (`punct`). -/
inductive Tok where
  | eof : Tok
  | func : Tok
  | imp : Tok
  | identifier : String → Tok
  | number : String → Tok
  | punct : Char → Tok
deriving DecidableEq, Repr

/-- The whitespace-skipping loop at the top of `gettok`:
`while (isspace(LastChar)) LastChar = getchar();`. -/
def skipSpaces (lc : Option Char) : List Char → Option Char × List Char
  | [] => if isSpaceOpt lc then (none, []) else (lc, [])
  | c :: cs => if isSpaceOpt lc then skipSpaces (some c) cs else (lc, c :: cs)

/-- The identifier loop:
`while (isalnum((LastChar = getchar()))) IdentifierStr += LastChar;`.
Returns the accumulated string, the new `LastChar` and the rest of the
stream. -/
def readIdent (acc : String) : List Char → String × Option Char × List Char
  | [] => (acc, none, [])
  | c :: cs => if isAlnumC c then readIdent (acc.push c) cs else (acc, some c, cs)

/-- `isdigit(LastChar) || LastChar == '.'` — the liberal number-character
test of `gettok`. -/
def isNumChar (c : Char) : Bool :=
  isDigitC c || c == '.'

/-- The number loop of `gettok`:
`do { numberString += LastChar; LastChar = getchar(); } while (isdigit(LastChar) || LastChar == '.');`. -/
def readNum (acc : String) (lc : Char) : List Char → String × Option Char × List Char
  | [] => (acc.push lc, none, [])
  | c :: cs =>
      if isNumChar c then readNum (acc.push lc) c cs
      else (acc.push lc, some c, cs)

/-- The comment loop of `gettok`:
`do { LastChar = getchar(); } while (LastChar != '\n' && LastChar != '\r' && LastChar != EOF);`. -/
def skipComment : List Char → Option Char × List Char
  | [] => (none, [])
  | c :: cs => if c == '\n' || c == '\r' then (some c, cs) else skipComment cs

/-- The body of the lexer `gettok`, with the self-call after a skipped
comment (`return gettok();`) driven by a structural fuel argument: skip
whitespace, then classify an identifier or keyword, a number, a comment
(skipped; then the restart unless the comment ran to end of input, in
which case execution falls through to the end-of-file return), end of
input, or a verbatim single-character token. Returns the token, the new
`LastChar` and the remaining stream. Each restart strictly consumes
input, so any fuel above the input length behaves identically
(`gettokF_fuel_irrelevant`) and the fuel-exhaustion branch is never
reached from `gettok`. -/
def gettokF : Nat → Option Char → List Char → Tok × Option Char × List Char
  | 0, _, l => (.eof, none, l)
  | fuel + 1, lc, l =>
      match skipSpaces lc l with
      | (none, l1) => (.eof, none, l1)
      | (some c, l1) =>
          if isAlphaC c then
            match readIdent (String.singleton c) l1 with
            | (s, lc2, l2) =>
                (if s = "func" then .func else if s = "import" then .imp
                 else .identifier s, lc2, l2)
          else if isNumChar c then
            match readNum "" c l1 with
            | (s, lc2, l2) => (.number s, lc2, l2)
          else if c == '#' then
            match skipComment l1 with
            | (none, l2) => (.eof, none, l2)
            | (some c2, l2) => gettokF fuel (some c2) l2
          else
            (.punct c, l1.head?, l1.tail)

/-- The lexer `gettok`: `gettokF` with enough fuel for its input. -/
def gettok (lc : Option Char) (l : List Char) : Tok × Option Char × List Char :=
  gettokF (l.length + 1) lc l

/-- Runs `gettok` from a given lexer state until `tok_eof`, collecting the
tokens produced (fuelled; `none` means the fuel ran out before end of
input was reached, so a `some` result certifies that the lexer really
reached end of input). The initial `LastChar` of the program is a space
(`static int LastChar = ' ';`). -/
def lexAll : Nat → Option Char → List Char → Option (List Tok)
  | 0, _, _ => none
  | fuel + 1, lc, l =>
      match gettok lc l with
      | (.eof, _, _) => some []
      | (t, lc2, l2) =>
          match lexAll fuel lc2 l2 with
          | none => none
          | some ts => some (t :: ts)

/-- The natural number denoted by a digits-only numeric literal: the exact
value `strtod` gives such a literal (`NumVal`); the full floating-point
behavior of `strtod` on literals containing a dot is out of scope. -/
def natOfDigits (s : String) : Nat :=
  s.toList.foldl (fun a c => a * 10 + (c.toNat - 48)) 0

/-- `FuncProtoAST`: the function name and the parameter names. -/
structure FuncProto where
  name : String
  args : List String
deriving DecidableEq, Repr

/-- The AST of scanner.cpp: `NumberAST` (carrying the matched literal
string, see `natOfDigits`), `BinOpAST` (carrying the `int` token that was
consumed as the operator, normally a character code), `VariableAST`,
`FuncCallAST`, and `FunctionAST` (a prototype plus the body expression). -/
inductive Ast where
  | num : String → Ast
  | binOp : Int → Ast → Ast → Ast
  | varRef : String → Ast
  | call : String → List Ast → Ast
  | funcDef : FuncProto → Ast → Ast
deriving Repr

/-- Parser state: `CurrToken` plus the not-yet-delivered tokens. -/
structure PState where
  cur : Tok
  rest : List Tok
deriving DecidableEq, Repr

/-- `GetNextToken(): CurrToken = gettok()`. Once the stream is exhausted,
`gettok` keeps returning `tok_eof`. -/
def getNextToken (st : PState) : PState :=
  match st.rest with
  | [] => ⟨.eof, []⟩
  | t :: ts => ⟨t, ts⟩

/-- The `int` to signed `char` conversion applied to `CurrToken` when it is
used as the key of `ORDER_OF_OPS` (x86-64 Linux: `char` is signed, so
values 128..255 wrap to negative; the `tok_*` enumerators -1..-5 are
unchanged). -/
def charKey (c : Char) : Int :=
  if c.toNat < 128 then (c.toNat : Int) else ((c.toNat % 256 : Nat) : Int) - 256

/-- The `ORDER_OF_OPS` key of a token: the enumerator value for the
keyword, identifier, number and end-of-file tokens, and the (signed)
character code for a verbatim character token. -/
def tokKey : Tok → Int
  | .eof => -1
  | .func => -2
  | .imp => -3
  | .identifier _ => -4
  | .number _ => -5
  | .punct c => charKey c

/-- `ORDER_OF_OPS[CurrToken]`: `std::map::operator[]` value-initializes an
absent entry, so an absent key yields 0 (not the -1 the comment next to
the subscript claims). -/
def precLookup (tbl : List (Int × Int)) (t : Tok) : Int :=
  (tbl.lookup (tokKey t)).getD 0

mutual

/-- `ParseExpr`: parse a primary (`ParseLhs`), then climb with
`ParseBinOpRhs(0, lhs)`. -/
def parseExpr (tbl : List (Int × Int)) : Nat → PState → Option (Option Ast × PState)
  | 0, _ => none
  | fuel + 1, st =>
      match parseLhs tbl fuel st with
      | none => none
      | some (none, st1) => some (none, st1)
      | some (some lhs, st1) => parseBinOpRhs tbl fuel 0 lhs st1

/-- `ParseLhs`: dispatch on `CurrToken` — identifier, number (the body of
`ParseNumber` is inlined: build `NumberAST(NumVal)` and advance),
a parenthesized expression, or the error `Invalid expression. Expected
LHS.` leaving the current token in place. -/
def parseLhs (tbl : List (Int × Int)) : Nat → PState → Option (Option Ast × PState)
  | 0, _ => none
  | fuel + 1, st =>
      match st.cur with
      | .identifier name => parseIdentifier tbl fuel name st
      | .number s => some (some (.num s), getNextToken st)
      | .punct '(' => parseParenExpr tbl fuel st
      | _ => some (none, st)

/-- `ParseIdentifier`: remember `IdentifierStr`, advance; if the next token
is not `(`, a `VariableAST`; otherwise the call-argument loop (note that
the source never consumes the opening `(` before the loop), then the
closing-parenthesis check. -/
def parseIdentifier (tbl : List (Int × Int)) : Nat → String → PState → Option (Option Ast × PState)
  | 0, _, _ => none
  | fuel + 1, name, st =>
      let st1 := getNextToken st
      if st1.cur ≠ .punct '(' then some (some (.varRef name), st1)
      else
        match parseCallArgs tbl fuel [] st1 with
        | none => none
        | some (none, st2) => some (none, st2)
        | some (some args, st2) =>
            if st2.cur ≠ .punct ')' then some (none, st2)
            else some (some (.call name args), getNextToken st2)

/-- The call-argument loop of `ParseIdentifier`:
`do { arg = ParseExpr(); if (!arg) return nullptr; args.push_back(arg); } while (GetNextToken() == ',');`
— after each argument the current token is consumed unconditionally and
the loop continues exactly when the newly produced token is a comma. -/
def parseCallArgs (tbl : List (Int × Int)) : Nat → List Ast → PState → Option (Option (List Ast) × PState)
  | 0, _, _ => none
  | fuel + 1, args, st =>
      match parseExpr tbl fuel st with
      | none => none
      | some (none, st1) => some (none, st1)
      | some (some a, st1) =>
          let st2 := getNextToken st1
          if st2.cur = .punct ',' then parseCallArgs tbl fuel (args ++ [a]) st2
          else some (some (args ++ [a]), st2)

/-- `ParseParenExpr`: consume `(`, parse an expression (the null result of
the inner `ParseExpr` is not checked), require `)` (else the error
`Expected closing parenthesis` with the current token left in place),
consume it, and return the inner expression unwrapped. -/
def parseParenExpr (tbl : List (Int × Int)) : Nat → PState → Option (Option Ast × PState)
  | 0, _ => none
  | fuel + 1, st =>
      let st1 := getNextToken st
      match parseExpr tbl fuel st1 with
      | none => none
      | some (e, st2) =>
          if st2.cur ≠ .punct ')' then some (none, st2)
          else some (e, getNextToken st2)

/-- `ParseBinOpRhs(ExprPrec, lhs)`: look up the precedence of the current
token; if it is below `ExprPrec` return `lhs`; otherwise consume the token
as the operator, parse a primary, let the operator climb on the right when
the following token binds tighter, fold into a `BinOpAST` and continue the
loop (modelled by the tail call at the same minimum precedence). -/
def parseBinOpRhs (tbl : List (Int × Int)) : Nat → Int → Ast → PState → Option (Option Ast × PState)
  | 0, _, _, _ => none
  | fuel + 1, prec, lhs, st =>
      let tokPrec := precLookup tbl st.cur
      if tokPrec < prec then some (some lhs, st)
      else
        let curOp := tokKey st.cur
        let st1 := getNextToken st
        match parseLhs tbl fuel st1 with
        | none => none
        | some (none, st2) => some (none, st2)
        | some (some rhs, st2) =>
            let nextPrec := precLookup tbl st2.cur
            match (if tokPrec < nextPrec then parseBinOpRhs tbl fuel (tokPrec + 1) rhs st2
                   else some (some rhs, st2)) with
            | none => none
            | some (none, st3) => some (none, st3)
            | some (some rhs2, st3) =>
                parseBinOpRhs tbl fuel prec (.binOp curOp lhs rhs2) st3

end

/-- The parameter-list loop of `ParseFuncProto`:
`do { if (CurrToken != tok_identifier) { error; return; } args.push_back(IdentifierStr); } while (GetNextToken() == ',');`
— `GetNextToken` is inlined into the recursion (the state is split into
`cur` and `rest`) so that the loop is structurally recursive on the
remaining token list. `none` is the error path (a non-identifier where a
parameter name is required), which leaves the offending current token in
place. -/
def protoParams (args : List String) (cur : Tok) (rest : List Tok) :
    Option (List String) × PState :=
  match cur with
  | .identifier s =>
      match rest with
      | [] => (some (args ++ [s]), ⟨.eof, []⟩)
      | t :: ts =>
          if t = .punct ',' then protoParams (args ++ [s]) t ts
          else (some (args ++ [s]), ⟨t, ts⟩)
  | _ => (none, ⟨cur, rest⟩)

/-- `ParseFuncProto`: advance once (the comment in the source says `Eat
the func keyword`), require an identifier (the function name), advance,
require `(`, advance, run the parameter loop, require `)`, advance, and
build the `FuncProtoAST`. Every failed check reports an error and
produces a null prototype. -/
def parseFuncProto (st : PState) : Option FuncProto × PState :=
  let st1 := getNextToken st
  match st1.cur with
  | .identifier name =>
      let st2 := getNextToken st1
      if st2.cur ≠ .punct '(' then (none, st2)
      else
        let st3 := getNextToken st2
        match protoParams [] st3.cur st3.rest with
        | (none, st4) => (none, st4)
        | (some args, st4) =>
            if st4.cur ≠ .punct ')' then (none, st4)
            else (some ⟨name, args⟩, getNextToken st4)
  | _ => (none, st1)

/-- `ParseFuncDef`: advance once (its comment also says `Eat the func
keyword` — both this function and `ParseFuncProto` advance before the
name), parse a prototype, then parse the body expression; a null
prototype or body propagates as a null result. -/
def parseFuncDef (tbl : List (Int × Int)) (fuel : Nat) (st : PState) :
    Option (Option Ast × PState) :=
  let st1 := getNextToken st
  match parseFuncProto st1 with
  | (none, st2) => some (none, st2)
  | (some proto, st2) =>
      match parseExpr tbl fuel st2 with
      | none => none
      | some (none, st3) => some (none, st3)
      | some (some body, st3) => some (some (.funcDef proto body), st3)

/-- `ParseTopLevelExpr`: parse one bare expression and wrap it in a
`FunctionAST` whose prototype is the nullary anonymous prototype. -/
def parseTopLevelExpr (tbl : List (Int × Int)) (fuel : Nat) (st : PState) :
    Option (Option Ast × PState) :=
  match parseExpr tbl fuel st with
  | none => none
  | some (none, st1) => some (none, st1)
  | some (some e, st1) => some (some (.funcDef ⟨"__anon_func__", []⟩ e), st1)

/-- `ParseImport`: always the error `Import not implemented.` with a null
result. -/
def parseImportStub (st : PState) : Option Ast × PState :=
  (none, st)

/-- `HandleFuncDef`: the source tests `if (ParseFuncDef)` — the address of
the function, not a call — so the condition is always true, nothing is
parsed, and no token is consumed. -/
def handleFuncDef (st : PState) : PState :=
  st

/-- `HandleImport`: likewise tests `if (ParseImport)` — always true, no
call, no token consumed. -/
def handleImport (st : PState) : PState :=
  st

/-- `HandleTopLevelExpr`: on a null parse result advance one token,
otherwise keep the state produced by the parse. The outer `none` is
propagated fuel exhaustion. -/
def handleTopLevelExpr (tbl : List (Int × Int)) (fuel : Nat) (st : PState) :
    Option PState :=
  match parseTopLevelExpr tbl fuel st with
  | none => none
  | some (some _, st1) => some st1
  | some (none, st1) => some (getNextToken st1)

/-- `TopLevelParse`: `while (CurrToken != EOF)` (the macro `EOF` is -1,
the value of `tok_eof`) dispatch on the current token: `tok_func` and
`tok_import` run their handlers (which do nothing, see `handleFuncDef`),
a semicolon is ignored without consuming it (`case ';': break;`), and
anything else attempts a top-level expression. Fuelled: `none` means the
loop was still running when the fuel ran out, so a proof that every fuel
yields `none` is a proof of nontermination. -/
def topLevelParse (tbl : List (Int × Int)) : Nat → PState → Option PState
  | 0, _ => none
  | fuel + 1, st =>
      if st.cur = .eof then some st
      else
        match st.cur with
        | .func => topLevelParse tbl fuel (handleFuncDef st)
        | .imp => topLevelParse tbl fuel (handleImport st)
        | .punct ';' => topLevelParse tbl fuel st
        | _ =>
            match handleTopLevelExpr tbl fuel st with
            | none => none
            | some st2 => topLevelParse tbl fuel st2

/-- A population of `ORDER_OF_OPS` giving `+` precedence 10 and `*`
precedence 20 (both non-negative, `*` above `+`). -/
def tblPlusTimes : List (Int × Int) :=
  [(charKey '+', 10), (charKey '*', 20)]

/-- A population of `ORDER_OF_OPS` giving `-` precedence 10. -/
def tblMinus : List (Int × Int) :=
  [(charKey '-', 10)]

/-- A population of `ORDER_OF_OPS` giving the semicolon the negative
precedence -1 (used to exhibit a successful `ParseTopLevelExpr`). -/
def tblSemiNeg : List (Int × Int) :=
  [(charKey ';', -1)]

/-- The token stream of the input `a + b * c`, as the parser sees it:
current token `a`, then the rest. -/
def stAPlusBTimesC : PState :=
  ⟨.identifier "a", [.punct '+', .identifier "b", .punct '*', .identifier "c"]⟩

/-- The token stream of the input `a - b - c`. -/
def stAMinusBMinusC : PState :=
  ⟨.identifier "a", [.punct '-', .identifier "b", .punct '-', .identifier "c"]⟩

/-- The token stream of the input `(a + b) * c`. -/
def stParenABTimesC : PState :=
  ⟨.punct '(', [.identifier "a", .punct '+', .identifier "b", .punct ')',
    .punct '*', .identifier "c"]⟩

/-- The token stream of the input `func add(a, b) a + b`. -/
def stFuncAdd : PState :=
  ⟨.func, [.identifier "add", .punct '(', .identifier "a", .punct ',',
    .identifier "b", .punct ')', .identifier "a", .punct '+', .identifier "b"]⟩

theorem skipSpaces_not_space (lc : Option Char) (l : List Char)
    (h : isSpaceOpt lc = false) : skipSpaces lc l = (lc, l) := by
  cases l <;> simp [skipSpaces, h]

theorem skipSpaces_length (lc : Option Char) (l : List Char) :
    (skipSpaces lc l).2.length ≤ l.length := by
  induction l generalizing lc with
  | nil => simp only [skipSpaces]; split <;> simp
  | cons d ds ih =>
      simp only [skipSpaces]
      split
      · exact le_trans (ih (some d)) (Nat.le_succ _)
      · simp

theorem skipComment_length (l : List Char) (c : Char) (r : List Char)
    (h : skipComment l = (some c, r)) : r.length < l.length := by
  induction l generalizing c r with
  | nil => simp [skipComment] at h
  | cons d ds ih =>
      simp only [skipComment] at h
      split at h
      · cases h; simp
      · exact Nat.lt_trans (ih c r h) (Nat.lt_succ_self _)

/-- Any fuel above the input length makes `gettokF` behave the same: each
comment restart strictly consumes input, so the fuel-exhaustion branch of
`gettokF` is unreachable from `gettok`, which supplies fuel
`l.length + 1`. -/
theorem gettokF_fuel_irrelevant (fuel : Nat) : ∀ (fuel2 : Nat)
    (lc : Option Char) (l : List Char), l.length < fuel → l.length < fuel2 →
    gettokF fuel lc l = gettokF fuel2 lc l := by
  induction fuel with
  | zero => intro fuel2 lc l h _; exact absurd h (Nat.not_lt_zero _)
  | succ n ih =>
      intro fuel2 lc l h h2
      cases fuel2 with
      | zero => exact absurd h2 (Nat.not_lt_zero _)
      | succ m =>
          simp only [gettokF]
          rcases hss : skipSpaces lc l with ⟨lc1, l1⟩
          cases lc1 with
          | none => rfl
          | some c =>
              have h1le : l1.length ≤ l.length := by
                have := skipSpaces_length lc l
                rw [hss] at this
                exact this
              dsimp only
              split_ifs <;> first
                | rfl
                | (rcases hsc : skipComment l1 with ⟨oc, l2⟩
                   cases oc with
                   | none => rfl
                   | some c2 =>
                       have h2lt : l2.length < l1.length :=
                         skipComment_length l1 c2 l2 hsc
                       exact ih m (some c2) l2 (by omega) (by omega))

theorem skipComment_no_newline (cs : List Char)
    (h : ∀ c ∈ cs, c ≠ '\n' ∧ c ≠ '\r') : skipComment cs = (none, []) := by
  induction cs with
  | nil => rfl
  | cons c cs ih =>
      have hc := h c (List.mem_cons_self c cs)
      simp only [skipComment]
      rw [if_neg (by simp [hc.1, hc.2])]
      exact ih fun d hd => h d (List.mem_cons_of_mem c hd)

/-- Claim C1 (code bug): with `+` at precedence 10 and `*` at precedence
20, parsing `a + b * c` does NOT yield the claimed tree: the absent-key
lookup for the trailing `tok_eof` yields 0, which is not below the minimum
precedence 0, so `ParseBinOpRhs` consumes the end-of-input token as an
operator, `ParseLhs` then fails, and the whole parse returns a null
result. -/
theorem parseAPlusBTimesC_null :
    parseExpr tblPlusTimes 20 stAPlusBTimesC = some (none, ⟨.eof, []⟩) := by
  rfl

/-- Claim C2 (code bug): an absent key of `ORDER_OF_OPS` resolves to 0
(`std::map::operator[]` value-initializes), not to a sentinel strictly
below every valid minimum precedence; consequently `ParseBinOpRhs` called
with minimum precedence 0 on a non-operator current token (here `;`, with
a table populated only for `+`) does not exit its loop: it consumes the
token as an operator and returns a null result instead of the accumulated
left-hand side. -/
theorem parseBinOpRhs_absent_token_consumed :
    precLookup [(charKey '+', 10)] (.punct ';') = 0 ∧
    parseBinOpRhs [(charKey '+', 10)] 20 0 (.varRef "a") ⟨.punct ';', []⟩
      = some (none, ⟨.eof, []⟩) := by
  exact ⟨rfl, rfl⟩

/-- Claim C3 (code bug): the top-level driver loop does not always
terminate. A current token `;` is never consumed (`case ';': break;` does
not advance), and a current token `func` or `import` is never consumed
either (`if (ParseFuncDef)` tests the function pointer instead of calling
it, so the recovery branch never runs): in all three cases the loop state
repeats forever, modelled as `topLevelParse` exhausting every fuel. -/
theorem topLevelParse_stuck (tbl : List (Int × Int)) (ts : List Tok) :
    (∀ fuel : Nat, topLevelParse tbl fuel ⟨.punct ';', ts⟩ = none) ∧
    (∀ fuel : Nat, topLevelParse tbl fuel ⟨.func, ts⟩ = none) ∧
    (∀ fuel : Nat, topLevelParse tbl fuel ⟨.imp, ts⟩ = none) := by
  refine ⟨fun fuel => ?_, fun fuel => ?_, fun fuel => ?_⟩ <;>
    · induction fuel with
      | zero => rfl
      | succ n ih => simpa [topLevelParse, handleFuncDef, handleImport] using ih

/-- Claim C4 (code bug): parsing `func add(a, b) a + b` as a function
definition fails with a null result. `ParseFuncDef` consumes the `func`
keyword, but `ParseFuncProto` begins by consuming another token (its
comment also says it eats `func`) — so the function name `add` is skipped
and `(` sits where the identifier is required, which raises `Expected
identifier in function definition.`. -/
theorem parseFuncAdd_null :
    parseFuncDef tblPlusTimes 20 stFuncAdd
      = some (none, ⟨.punct '(', [.identifier "a", .punct ',',
          .identifier "b", .punct ')', .identifier "a", .punct '+',
          .identifier "b"]⟩) := by
  rfl

/-- Claim C5 (code bug): with `-` at precedence 10, parsing `a - b - c`
builds the left-associated tree but then hits the end-of-input token,
whose absent-key precedence 0 is not below the minimum 0, so the tree is
discarded for a null result; the claimed left-associated output is never
returned. -/
theorem parseAMinusBMinusC_null :
    parseExpr tblMinus 20 stAMinusBMinusC = some (none, ⟨.eof, []⟩) := by
  rfl

/-- Claim C6 (code bug): with `+` at 10 and `*` at 20, parsing
`(a + b) * c` fails with a null result: inside the parentheses the
closing `)` looks up precedence 0, which is not below the minimum 0, so
the inner `ParseBinOpRhs` consumes `)` as an operator and fails; the
enclosing `ParseParenExpr` then misses its `)` and reports `Expected
closing parenthesis` with `*` as the current token. -/
theorem parseParenABTimesC_null :
    parseExpr tblPlusTimes 20 stParenABTimesC
      = some (none, ⟨.punct '*', [.identifier "c"]⟩) := by
  rfl

/-- Claim C7 (confirmed): lexing the two-line input `# note NEWLINE 42`
from the initial lexer state produces exactly one token — the numeric
token `42` — before end of input; the comment contributes no token, and
the digits-only literal `42` denotes the value 42 (which is exactly what
`strtod` stores in `NumVal`). -/
theorem lexCommentThen42 :
    lexAll 3 (some ' ')
        ['#', ' ', 'n', 'o', 't', 'e', '\n', '4', '2']
        = some [.number "42"] ∧
    natOfDigits "42" = 42 := by
  exact ⟨rfl, rfl⟩

/-- Claim C8 (confirmed): whenever `ParseTopLevelExpr` succeeds, the
result is a `FunctionAST` whose prototype is the nullary anonymous
prototype named `__anon_func__` and whose body is exactly the expression
`ParseExpr` produced, at the same final state. -/
theorem parseTopLevelExpr_shape (tbl : List (Int × Int)) (fuel : Nat)
    (st : PState) (r : Ast) (st1 : PState)
    (h : parseTopLevelExpr tbl fuel st = some (some r, st1)) :
    ∃ e, parseExpr tbl fuel st = some (some e, st1) ∧
      r = .funcDef ⟨"__anon_func__", []⟩ e := by
  unfold parseTopLevelExpr at h
  cases he : parseExpr tbl fuel st with
  | none => rw [he] at h; simp at h
  | some p =>
      obtain ⟨e?, st2⟩ := p
      cases e? with
      | none => rw [he] at h; simp at h
      | some e =>
          rw [he] at h
          simp only [Option.some.injEq, Prod.mk.injEq] at h
          exact ⟨e, by rw [h.2], h.1.symm⟩

/-- Witness for claim C8: with the semicolon given precedence -1, the
token stream of `42 ;` parses successfully and the wrapping is as
stated. -/
theorem parseTopLevelExpr_shape_witness :
    ∃ e, parseExpr tblSemiNeg 20 ⟨.number "42", [.punct ';']⟩
        = some (some e, ⟨.punct ';', []⟩) ∧
      Ast.funcDef ⟨"__anon_func__", []⟩ (.num "42")
        = .funcDef ⟨"__anon_func__", []⟩ e :=
  parseTopLevelExpr_shape tblSemiNeg 20 ⟨.number "42", [.punct ';']⟩
    (.funcDef ⟨"__anon_func__", []⟩ (.num "42")) ⟨.punct ';', []⟩ rfl

/-- Claim C9 (confirmed): whenever the parameter list of a prototype has
two or more parameters — the first parameter identifier is followed by a
comma — `ParseFuncProto` fails with a null prototype: the loop condition
compares the token produced by `GetNextToken()` against ',' and so
consumes the identifier but never the comma; the loop body re-enters
with the comma as the current token
where an identifier is required, raising `Expected identifier in function
definition.` (the comma is left as the current token). The statement
covers every invocation (the leading token `c0` is consumed blindly) and
every continuation of the stream. -/
theorem parseFuncProto_two_params_null (c0 : Tok) (name p1 : String)
    (more : List Tok) :
    parseFuncProto ⟨c0, .identifier name :: .punct '(' :: .identifier p1 ::
        .punct ',' :: more⟩
      = (none, ⟨.punct ',', more⟩) := by
  simp [parseFuncProto, protoParams, getNextToken]

/-- Claim C10 (confirmed): a comment that runs to the end of the input
with no terminating newline makes `gettok` return `tok_eof` from that same
call — the comment loop ends at end of input, the guarded recursion
`if (LastChar != EOF) return gettok();` is skipped, and execution falls
through to the end-of-file return. No token is produced for the comment
and no error is raised. -/
theorem gettok_trailing_comment_eof (cs : List Char)
    (h : ∀ c ∈ cs, c ≠ '\n' ∧ c ≠ '\r') :
    gettok (some '#') cs = (.eof, none, []) := by
  rw [gettok]
  simp only [gettokF]
  rw [skipSpaces_not_space (some '#') cs (by rfl)]
  simp only [isAlphaC, isNumChar, isDigitC]
  rw [skipComment_no_newline cs h]
  rfl

/-- Witness for claim C10: the input whose remaining characters are
` trailing` (no newline anywhere) makes the lexer return end-of-input
directly. -/
theorem gettok_trailing_comment_eof_witness :
    gettok (some '#') [' ', 't', 'r', 'a', 'i', 'l', 'i', 'n', 'g']
      = (.eof, none, []) :=
  gettok_trailing_comment_eof [' ', 't', 'r', 'a', 'i', 'l', 'i', 'n', 'g']
    (by decide)
